import Mathlib

/-!
Verification of the Theme Packaging & Deployment Pipeline of the stencil-cli
worker-bundle fork.  The definitions below are a shallow embedding of the two
source modules: the Cloudflare-worker bundle builder (`WorkerBundle` in
stencil-bundle-worker.js) and the deployment workflow helpers
(stencil-push.utils).  JavaScript machine behaviour (truthiness, strict
equality, Promise.allSettled, Array.prototype.reduce without an initial value,
async.retry) is embedded explicitly; remote collaborators (theme-api-client,
the file system) are passed in as explicit inputs.
-/

/-- A JavaScript error value: the workflow tags errors with a `name`
(e.g. `ThemeUploadError`) and carries a human-readable `message`. -/
structure JsError where
  name : String
  message : String
  deriving DecidableEq

/-! ## Static link stage: esbuild plugin configuration (stencil-bundle-worker.js) -/

/-- An esbuild plugin as used by `_bundleWorkerWithEsbuild`: a name plus the
`onResolve` interceptions it registers (import path to redirect target).
`onLoad` substitutions are modelled separately (see `whitelist`). -/
structure EsbuildPlugin where
  name : String
  onResolve : String → Option String

/-- The `handlebars-runtime` plugin defined in `_bundleWorkerWithEsbuild`:
redirects `handlebars` to `handlebars/runtime` and
`@bigcommerce/handlebars-v4` to its runtime variant (the try branch). -/
def handlebarsRuntimePlugin : EsbuildPlugin where
  name := "handlebars-runtime"
  onResolve := fun p =>
    if p == "handlebars" then some "handlebars/runtime"
    else if p == "@bigcommerce/handlebars-v4" then some "@bigcommerce/handlebars-v4/runtime"
    else none

/-- The `static-helpers` plugin: it registers only `onLoad` content
substitutions (for the helper index and the thirdParty helper module), and no
`onResolve` redirects. -/
def staticHelpersPlugin : EsbuildPlugin where
  name := "static-helpers"
  onResolve := fun _ => none

/-- Modelled from the spec: `NodeModulesPolyfillPlugin` is an external
collaborator (an npm package, not repository code) that polyfills Node
built-in modules only; it registers no redirect for the template engine. -/
def nodeModulesPolyfillPlugin : EsbuildPlugin where
  name := "node-modules-polyfill"
  onResolve := fun _ => none

/-- Modelled from the spec: `NodeGlobalsPolyfillPlugin` is an external
collaborator that injects Node globals (process, buffer); it registers no
redirect for the template engine. -/
def nodeGlobalsPolyfillPlugin : EsbuildPlugin where
  name := "node-globals-polyfill"
  onResolve := fun _ => none

/-- The `plugins` array actually passed to `esbuild.build` in
`_bundleWorkerWithEsbuild`.  In the source the line
`handlebarsRuntimePlugin` is commented out
("Disabled for now - causes precompile errors"), so it is absent here. -/
def workerBuildPlugins : List EsbuildPlugin :=
  [staticHelpersPlugin, nodeModulesPolyfillPlugin, nodeGlobalsPolyfillPlugin]

/-- Module resolution through the configured plugins: the first plugin whose
`onResolve` filter matches the import path decides the redirect; if none
matches, esbuild resolves the import normally (`none`). -/
def resolveImport : List EsbuildPlugin → String → Option String
  | [], _ => none
  | pl :: rest, p =>
    match pl.onResolve p with
    | some t => some t
    | none => resolveImport rest p

/-! ## Static link stage: the thirdParty helper allow-list (staticHelpersPlugin) -/

/-- One entry of the `whitelist` table in the static thirdParty.js module that
`staticHelpersPlugin` substitutes: a helper-group name and the helper names
permitted from that group (the source field is called `include`, a reserved
word in Lean). -/
structure WhitelistGroup where
  name : String
  includeNames : List String
  deriving DecidableEq

/-- The `whitelist` table of the substituted static thirdParty.js module,
verbatim from the source. -/
def whitelist : List WhitelistGroup :=
  [ { name := "array",
      includeNames :=
        ["after", "arrayify", "before", "eachIndex", "filter", "first",
         "forEach", "inArray", "isArray", "last", "lengthEqual", "map",
         "some", "sort", "sortBy", "withAfter", "withBefore", "withFirst",
         "withLast", "withSort"] },
    { name := "collection", includeNames := ["isEmpty", "iterate", "length"] },
    { name := "comparison",
      includeNames :=
        ["and", "gt", "gte", "has", "eq", "ifEven", "ifNth", "ifOdd",
         "is", "isnt", "lt", "lte", "neither", "unlessEq", "unlessGt",
         "unlessLt", "unlessGteq", "unlessLteq"] },
    { name := "html", includeNames := ["ellipsis", "sanitize", "ul", "ol", "thumbnailImage"] },
    { name := "inflection", includeNames := ["inflect", "ordinalize"] },
    { name := "markdown", includeNames := ["markdown"] },
    { name := "math",
      includeNames :=
        ["add", "subtract", "divide", "multiply", "floor", "ceil", "round", "sum", "avg"] },
    { name := "number",
      includeNames :=
        ["addCommas", "phoneNumber", "random", "toAbbr", "toExponential",
         "toFixed", "toFloat", "toInt", "toPrecision"] },
    { name := "object",
      includeNames :=
        ["extend", "forIn", "forOwn", "toPath", "hasOwn", "isObject",
         "merge", "JSONparse", "JSONstringify"] },
    { name := "string",
      includeNames :=
        ["camelcase", "capitalize", "capitalizeAll", "center", "chop",
         "dashcase", "dotcase", "hyphenate", "isString", "lowercase",
         "pascalcase", "pathcase", "plusify", "reverse", "sentence",
         "snakecase", "split", "startsWith", "titleize", "trim", "uppercase"] },
    { name := "url",
      includeNames := ["encodeURI", "decodeURI", "urlResolve", "urlParse", "stripProtocol"] } ]

/-- An entry of the `exportedHelpers` array built by the static thirdParty.js
module: the helper name and the value the `factory` closure returns
(`module[name]`, which may be `undefined` and is therefore an `Option`).
The group modules (3p/array.js, 3p/math.js, ...) are external packages, so
their contents are a parameter. -/
structure HelperEntry (υ : Type) where
  name : String
  factory : Option υ

/-- The loop body of the static thirdParty.js module: walk the whitelist; a
group whose module is missing is skipped with a warning; otherwise every
allow-listed name is pushed with a factory reading `module[name]`. -/
def exportedHelpersFold {υ : Type} (modules : String → Option (String → Option υ)) :
    List WhitelistGroup → List (HelperEntry υ) → List (HelperEntry υ)
  | [], acc => acc
  | g :: rest, acc =>
    match modules g.name with
    | none => exportedHelpersFold modules rest acc
    | some m => exportedHelpersFold modules rest (acc ++ g.includeNames.map (fun n => ⟨n, m n⟩))

/-- The `exportedHelpers` array of the substituted static thirdParty.js
module, as a function of the (external) group module contents. -/
def exportedHelpers {υ : Type} (modules : String → Option (String → Option υ)) :
    List (HelperEntry υ) :=
  exportedHelpersFold modules whitelist []

/-! ## Template compiler: `_generateStaticTemplates` -/

/-- The per-partial value of the assembled template map: the
template-assembler collaborator returns either a flat source string or an
object whose value under the partial's own key is the source; anything else
is skipped with a warning. -/
inductive TemplateData where
  | str (s : String)
  | obj (entries : List (String × String))
  | other
  deriving DecidableEq

/-- ASCII alphanumeric test, matching the JavaScript character class
[a-zA-Z0-9]. -/
def isAsciiAlphanum (c : Char) : Bool :=
  (('a' ≤ c) && (c ≤ 'z')) || (('A' ≤ c) && (c ≤ 'Z')) || (('0' ≤ c) && (c ≤ '9'))

/-- `templateName.replace(/[^a-zA-Z0-9]/g, '_')`: every non-alphanumeric
character becomes an underscore. -/
def safeName (s : String) : String :=
  ⟨s.data.map (fun c => if isAsciiAlphanum c then c else '_')⟩

/-- Resolving the template source from the map entry, as
`_generateStaticTemplates` does: a string is used as-is; for an object the
value under the template's own name is used, skipped when falsy (absent or
the empty string); other shapes are skipped. -/
def resolveTemplateSource (templateName : String) : TemplateData → Option String
  | .str s => some s
  | .obj entries =>
      match entries.lookup templateName with
      | some s => if s == "" then none else some s
      | none => none
  | .other => none

/-- One entry of the export table emitted at the end of templates.js:
the original partial identifier and the generated function name. -/
structure TemplateExport where
  name : String
  functionName : String
  deriving DecidableEq

/-- `_generateStaticTemplates`: walk the template map in order; for each
entry with a resolvable source, precompile it (a failure is rethrown and
aborts the whole generation) and record an export-table entry mapping the
original identifier to the function named `template_` + sanitized name.
The Handlebars precompiler is an external collaborator, passed in. -/
def generateStaticTemplates (ε : Type) (precompile : String → Except ε String) :
    List (String × TemplateData) → Except ε (List TemplateExport)
  | [] => .ok []
  | (n, d) :: rest =>
    match resolveTemplateSource n d with
    | none => generateStaticTemplates ε precompile rest
    | some src =>
      match precompile src with
      | .error e => .error e
      | .ok _ =>
        match generateStaticTemplates ε precompile rest with
        | .error e => .error e
        | .ok exps => .ok ({ name := n, functionName := "template_" ++ safeName n } :: exps)

/-! ## Build orchestrator: `initBundle` -/

/-- The stages of `initBundle`, one constructor per awaited step, in source
order of appearance. -/
inductive BundleStage where
  | validate
  | createOutputDir
  | assembleTemplates
  | assembleLang
  | getSchema
  | getConfig
  | generateWorkerPackageJson
  | installWorkerDependencies
  | generateWorkerScript
  | copyAssets
  | generateWranglerConfig
  deriving DecidableEq

/-- The order in which `initBundle` awaits its stages: validation first, then
the output directory is created (`fsPromises.mkdir`, line 40) before any
template parsing, then templates, language files, schema, config, and the
worker-specific tail. -/
def bundleStages : List BundleStage :=
  [.validate, .createOutputDir, .assembleTemplates, .assembleLang, .getSchema, .getConfig,
   .generateWorkerPackageJson, .installWorkerDependencies, .generateWorkerScript,
   .copyAssets, .generateWranglerConfig]

/-- Run a list of stages in order against an environment giving each stage's
outcome: the first failing stage aborts the remaining ones and its error is
surfaced unchanged (the catch block of `initBundle` logs and rethrows `err`
itself).  Returns the executed-stage trace and the final outcome. -/
def runSeq {E : Type} (env : BundleStage → Except E Unit) :
    List BundleStage → List BundleStage × Except E Unit
  | [] => ([], .ok ())
  | s :: rest =>
    match env s with
    | .error e => ([s], .error e)
    | .ok _ =>
      let r := runSeq env rest
      (s :: r.1, r.2)

/-- `initBundle`: the orchestrator state machine over its fixed stage list. -/
def initBundle (E : Type) (env : BundleStage → Except E Unit) :
    List BundleStage × Except E Unit :=
  runSeq env bundleStages

/-- The order of stages claimed by the spec for the orchestrator (create the
output directory only after fetching schema and config).  This definition
follows the spec's words, to be compared with `bundleStages`, which is
translated from the source. -/
def specClaimedStageOrder : List BundleStage :=
  [.validate, .assembleTemplates, .assembleLang, .getSchema, .getConfig, .createOutputDir,
   .generateWorkerPackageJson, .installWorkerDependencies, .generateWorkerScript,
   .copyAssets, .generateWranglerConfig]

/-! ## Partial dependency resolver: `_assembleTemplates` (external libraries) -/

/-- Character-list prefix test (structural, kernel-reducible). -/
def leadsWith : List Char → List Char → Bool
  | [], _ => true
  | _ :: _, [] => false
  | p :: ps, c :: cs => p == c && leadsWith ps cs

/-- Split a character list at the first occurrence of a pattern, returning
the part before and the part after (none when the pattern does not occur). -/
def listSplitFirst (pat : List Char) : List Char → Option (List Char × List Char)
  | [] => if pat.isEmpty then some ([], []) else none
  | c :: rest =>
    if leadsWith pat (c :: rest) then some ([], (c :: rest).drop pat.length)
    else
      match listSplitFirst pat rest with
      | some (pre, post) => some (c :: pre, post)
      | none => none

/-- `s.split(pat)[1]`: the chunk between the first occurrence of the pattern
and the next occurrence (or the end); `none` when the pattern does not occur
(JavaScript would yield `undefined`). -/
def jsSplitSecondChunk (pat l : List Char) : Option (List Char) :=
  match listSplitFirst pat l with
  | none => none
  | some (_, post) =>
    match listSplitFirst pat post with
    | none => some post
    | some (pre2, _) => some pre2

/-- `s.replace(pat, repl)` with a plain-string pattern: JavaScript replaces
only the first occurrence. -/
def jsReplaceOnce (s pat repl : String) : String :=
  match listSplitFirst pat.data s.data with
  | none => s
  | some (pre, post) => ⟨pre ++ repl.data ++ post⟩

/-- `s.replace(/\.html$/, '')`: strip one trailing `.html`. -/
def stripHtmlSuffix (s : String) : String :=
  if ".html".data.isSuffixOf s.data then ⟨s.data.take (s.data.length - 5)⟩ else s

/-- `s.replace(/\\/g, '/')`: normalize path separators. -/
def backslashToSlash (s : String) : String :=
  ⟨s.data.map (fun c => if c == '\\' then '/' else c)⟩

/-- An internal partial identifier: the file path with the templates-path
prefix removed (first occurrence), `.html` stripped, separators normalized
(`path.sep` is modelled as `/`). -/
def internalPartialOf (templatesPath file : String) : String :=
  backslashToSlash (stripHtmlSuffix (jsReplaceOnce file (templatesPath ++ "/") ""))

/-- An external partial identifier:
`('external' + file.split('node_modules')[1].replace(/\.html$/, '')).replace(/\\/g, '/')`.
When `node_modules` does not occur in the path, the `[1]` element is
`undefined` and calling `.replace` on it throws a TypeError. -/
def externalPartialOf (file : String) : Except JsError String :=
  match jsSplitSecondChunk "node_modules".data file.data with
  | none =>
    .error { name := "TypeError",
             message := "Cannot read properties of undefined (reading replace)" }
  | some chunk => .ok (backslashToSlash ("external" ++ stripHtmlSuffix ⟨chunk⟩))

/-- A settled promise, as produced by `Promise.allSettled`. -/
inductive SettledResult (α : Type) where
  | fulfilled (value : α)
  | rejected (reason : JsError)

/-- Modelled from the spec: `recursiveReadDir` (src/utils/fsUtils.js, which is
not part of the corpus) is the file-system recursive listing primitive the
spec consumes without re-specifying.  Listing a directory that does not exist
fails with a file-system error (standard directory-read semantics), which
`Promise.allSettled` captures as a rejected entry.  The file system is a map
from directory path to its recursive file list, `none` for a missing
directory. -/
def recursiveReadDirSettled (fs : String → Option (List String)) (dir : String) :
    SettledResult (List String) :=
  match fs dir with
  | some files => .fulfilled files
  | none => .rejected { name := "Error", message := "ENOENT: no such file or directory" }

/-- Destructuring `{ value }` from a settled result and then calling `.map`
on it, as `_assembleTemplates` does without checking `status`: for a rejected
entry `value` is `undefined` and the `.map` call throws a TypeError. -/
def settledValueForMap (s : SettledResult (List String)) : Except JsError (List String) :=
  match s with
  | .fulfilled v => .ok v
  | .rejected _ =>
    .error { name := "TypeError",
             message := "Cannot read properties of undefined (reading map)" }

/-- The partial-set assembly of `_assembleTemplates`, from the point where
the distinct external library names are known: read the template root and
each library's templates directory (`Promise.allSettled`), derive internal
partial identifiers, then fold the external settled entries into external
partial identifiers, and concatenate external before internal. -/
def assembleTemplatesPartials (fs : String → Option (List String)) (themePath : String)
    (externalLibs : List String) : Except JsError (List String) := do
  let templatesPath := themePath ++ "/templates"
  let settledInternal := recursiveReadDirSettled fs templatesPath
  let settledExternal := externalLibs.map
    (fun lib => recursiveReadDirSettled fs (themePath ++ "/node_modules/" ++ lib ++ "/templates"))
  let internalFiles ← settledValueForMap settledInternal
  let internalPartials := internalFiles.map (internalPartialOf templatesPath)
  let externalPartials ← settledExternal.foldlM
    (fun acc s => do
      let files ← settledValueForMap s
      let ext ← files.mapM externalPartialOf
      pure (acc ++ ext))
    []
  pure (externalPartials ++ internalPartials)

/-- A concrete file system for evaluating the missing-library behaviour: the
theme's own templates directory exists with one template; nothing else does
(in particular no external library directory). -/
def missingLibFs : String → Option (List String) :=
  fun dir =>
    if dir == "/theme/templates" then some ["/theme/templates/pages/home.html"] else none

/-! ## Deployment workflow: variation selection (`getVariations`) -/

/-- The value of the `activate` CLI option: `undefined` when the flag is
absent, boolean `true` when given without a value, or the variation-name
string when given with a value. -/
inductive ActivateFlag where
  | undef
  | bool (b : Bool)
  | str (s : String)
  deriving DecidableEq

/-- JavaScript truthiness of the activate value. -/
def jsTruthy : ActivateFlag → Bool
  | .undef => false
  | .bool b => b
  | .str s => !(s == "")

/-- Strict equality test against `undefined`. -/
def isUndef : ActivateFlag → Bool
  | .undef => true
  | _ => false

/-- `item.name === activate`: strict equality of a string against the
activate value is true only when the value is that same string. -/
def nameStrictEq (itemName : String) : ActivateFlag → Bool
  | .str s => itemName == s
  | _ => false

/-- A theme variation as returned by `getVariationsByThemeId`. -/
structure Variation where
  name : String
  uuid : String
  deriving DecidableEq

/-- The session fields `getVariations` reads and writes. -/
structure VariationOptions where
  applyTheme : Bool
  activate : ActivateFlag
  variationId : Option String
  variations : Option (List Variation)
  deriving DecidableEq

/-- `Array.prototype.join(', ')`. -/
def jsJoin (sep : String) : List String → String
  | [] => ""
  | [x] => x
  | x :: y :: rest => x ++ sep ++ jsJoin sep (y :: rest)

/-- The message of the invalid-variation error thrown by `getVariations`. -/
def invalidVariationMessage (remote : List Variation) : String :=
  "Invalid theme variation provided!. Available options " ++
    jsJoin ", " (remote.map (fun v => v.name)) ++ "..."

/-- `getVariations` from stencil-push.utils, translated branch for branch.
The remote variation list (an API-client response) is an explicit input.
Note the first branch tests `!activate && activate !== undefined`, so it is
reached only for defined falsy values; a truthy variation-name string falls
through to the `if (activate)` branch, which selects `variations[0].uuid`
(a TypeError when the list is empty). -/
def getVariations (opts : VariationOptions) (remote : List Variation) :
    Except JsError VariationOptions :=
  if !opts.applyTheme then .ok opts
  else if !(jsTruthy opts.activate) && !(isUndef opts.activate) then
    match remote.find? (fun item => nameStrictEq item.name opts.activate) with
    | some fv =>
      if fv.uuid == "" then .error { name := "Error", message := invalidVariationMessage remote }
      else .ok { opts with variationId := some fv.uuid }
    | none => .error { name := "Error", message := invalidVariationMessage remote }
  else if jsTruthy opts.activate then
    match remote with
    | [] =>
      .error { name := "TypeError",
               message := "Cannot read properties of undefined (reading uuid)" }
    | v :: _ => .ok { opts with variationId := some v.uuid }
  else .ok { opts with variations := some remote }

/-- The variation list of the spec's worked example. -/
def lightDarkVariations : List Variation :=
  [{ name := "Light", uuid := "uuid-light" }, { name := "Dark", uuid := "uuid-dark" }]

/-! ## Deployment workflow: quota branch (`promptUserToDeleteThemesIfNecessary`) -/

/-- A remote theme record, with `updated_at` modelled as the numeric
timestamp `new Date(theme.updated_at).valueOf()` yields. -/
structure Theme where
  uuid : String
  name : String
  is_private : Bool
  is_active : Bool
  updated_at : Nat
  deriving DecidableEq

/-- The projection `promptUserToDeleteThemesIfNecessary` maps each candidate
theme to before reducing. -/
structure DeleteCandidate where
  uuid : String
  updated_at : Nat
  deriving DecidableEq

/-- The session fields the quota branch reads and writes. -/
structure PushOptions where
  themeLimitReached : Bool
  deleteOldest : Bool
  themes : List Theme
  themeIdsToDelete : Option (List String)
  deriving DecidableEq

/-- The private, non-active deletion candidates, in list order. -/
def deleteCandidates (themes : List Theme) : List DeleteCandidate :=
  (themes.filter (fun t => t.is_private && !t.is_active)).map
    (fun t => { uuid := t.uuid, updated_at := t.updated_at })

/-- `Array.prototype.reduce` without an initial value: throws a TypeError on
an empty array, otherwise folds from the first element. -/
def jsReduceNoInit {α : Type} (f : α → α → α) : List α → Except JsError α
  | [] => .error { name := "TypeError", message := "Reduce of empty array with no initial value" }
  | x :: xs => .ok (xs.foldl f x)

/-- The reducer `(prev, current) => (prev.updated_at < current.updated_at ? prev : current)`:
keeps the accumulator only when strictly older, so an equal timestamp moves
the pick to the current (later) element. -/
def olderOf (prev current : DeleteCandidate) : DeleteCandidate :=
  if prev.updated_at < current.updated_at then prev else current

/-- `promptUserToDeleteThemesIfNecessary`: pass the session through when the
limit is not reached; with `deleteOldest`, reduce the candidates to a single
oldest pick; otherwise the interactive multi-select prompt runs, whose
answer is abstracted as the `promptSelection` input. -/
def promptUserToDeleteThemesIfNecessary (promptSelection : List String) (opts : PushOptions) :
    Except JsError PushOptions :=
  if !opts.themeLimitReached then .ok opts
  else if opts.deleteOldest then
    match jsReduceNoInit olderOf (deleteCandidates opts.themes) with
    | .ok oldest => .ok { opts with themeIdsToDelete := some [oldest.uuid] }
    | .error e => .error e
  else .ok { opts with themeIdsToDelete := some promptSelection }

/-- Two private, non-active themes sharing the same `updated_at`. -/
def tieThemes : List Theme :=
  [{ uuid := "A", name := "Theme A", is_private := true, is_active := false, updated_at := 5 },
   { uuid := "B", name := "Theme B", is_private := true, is_active := false, updated_at := 5 }]

/-- A session at the quota branch with the tie-breaking theme list. -/
def tieOptions : PushOptions :=
  { themeLimitReached := true, deleteOldest := true, themes := tieThemes,
    themeIdsToDelete := none }

/-- A session at the quota branch whose theme list has no private,
non-active theme. -/
def noCandidateOptions : PushOptions :=
  { themeLimitReached := true, deleteOldest := true,
    themes := [{ uuid := "A", name := "Active", is_private := true, is_active := true,
                 updated_at := 3 }],
    themeIdsToDelete := none }

/-! ## Deployment workflow: retry loops (async.retryable) -/

/-- An error thrown by a polled/retried remote call; for the job poll the
`message` carries the pending percentage
(`utils.markJobProgressPercentage(err.message)`). -/
structure JobError where
  name : String
  message : Nat
  deriving DecidableEq

/-- Observable events of a retry loop: a reported progress percentage
(`bar.update`) or a wall-clock sleep between attempts (`interval`). -/
inductive TraceEv where
  | progress (percent : Nat)
  | sleep (ms : Nat)
  deriving DecidableEq

/-- The outcome of driving a retry loop against a finite response script:
how many calls were made, the observable trace, and the final result
(`none` when the script was exhausted while the loop would still retry). -/
structure RetryOutcome (ε α : Type) where
  calls : Nat
  trace : List TraceEv
  result : Option (Except ε α)

/-- The semantics of `async.retryable({interval, errorFilter, times}, task)`,
driven by a script of successive task responses.  On an error the attempt
counter is compared against `times` first (`none` models
`Number.POSITIVE_INFINITY`); only then is the error filter consulted, which
either classifies the error as retryable (emitting its side-effect events,
then sleeping `interval` ms before the next attempt) or surfaces it.  A
success emits `okEvents` (the events the task itself emits on success) and
ends the loop. -/
def runRetryable {ε α : Type} (interval : Nat) (filterEv : ε → Option (List TraceEv))
    (okEvents : List TraceEv) :
    Nat → Option Nat → List (Except ε α) → RetryOutcome ε α
  | _, _, [] => { calls := 0, trace := [], result := none }
  | attempt, times, r :: rest =>
    match r with
    | .ok v => { calls := 1, trace := okEvents, result := some (.ok v) }
    | .error e =>
      let canRetry :=
        match times with
        | none => true
        | some t => attempt < t
      if canRetry then
        match filterEv e with
        | some evs =>
          let o := runRetryable interval filterEv okEvents (attempt + 1) times rest
          { calls := o.calls + 1,
            trace := evs ++ TraceEv.sleep interval :: o.trace,
            result := o.result }
        | none => { calls := 1, trace := [], result := some (.error e) }
      else { calls := 1, trace := [], result := some (.error e) }

/-- The error name the poll loop treats as the pending retry signal. -/
def jobPendingName : String := "JobCompletionStatusCheckPendingError"

/-- The `errorFilter` of `pollForJobCompletion`: a pending-named error
updates the reported progress with the percentage carried in the message and
retries; anything else is surfaced. -/
def pollErrorFilter (e : JobError) : Option (List TraceEv) :=
  if e.name == jobPendingName then some [.progress e.message] else none

/-- `pollForJobCompletion`: `async.retryable` with a fixed 1-second interval
and `times: Number.POSITIVE_INFINITY`, wrapping `checkIfJobIsComplete`, which
on a successful `getJob` response calls `markJobComplete` (reporting 100).
Modelled from the spec in one respect: `themeApiClient.getJob` (not part of
the corpus) signals a pending job by throwing the pending-named error whose
message is the completion percentage; the script of its successive responses
is an explicit input. -/
def pollForJobCompletion (α : Type) (script : List (Except JobError α)) :
    RetryOutcome JobError α :=
  runRetryable 1000 pollErrorFilter [.progress 100] 1 none script

/-- The error name the activation step treats as retryable. -/
def activationTimeoutName : String := "VariationActivationTimeoutError"

/-- The `errorFilter` of `requestToApplyVariationWithRetrys`: only the
timeout-named error is retried (the console warning is not modelled as a
trace event). -/
def activationErrorFilter (e : JobError) : Option (List TraceEv) :=
  if e.name == activationTimeoutName then some [] else none

/-- `requestToApplyVariationWithRetrys`: `async.retryable` with a 1-second
interval and `times: 3`, wrapping `requestToApplyVariation`.  Modelled from
the spec in one respect: `themeApiClient.activateThemeByVariationId` (not
part of the corpus) produces the successive responses; the script is an
explicit input. -/
def requestToApplyVariationWithRetrys (α : Type) (script : List (Except JobError α)) :
    RetryOutcome JobError α :=
  runRetryable 1000 activationErrorFilter [] 1 (some 3) script

/-- A stage environment failing exactly at template assembly, for
exercising the orchestrator's abort behaviour. -/
def failAtTemplatesEnv : BundleStage → Except String Unit :=
  fun s => if s = .assembleTemplates then .error "fs failure" else .ok ()

/-- A stage environment in which every stage succeeds. -/
def allOkEnv : BundleStage → Except String Unit := fun _ => .ok ()

/-- A concrete 3p module table for the allow-list witness: only the math
module exists and defines only `add`. -/
def mathOnlyModules : String → Option (String → Option Nat) :=
  fun g => if g == "math" then some (fun n => if n == "add" then some 0 else none) else none

/-- A concrete template map with two identifiers whose sanitized forms
differ. -/
def sampleTemplates : List (String × TemplateData) :=
  [("pages/home", .str "x"), ("components/nav", .str "y")]

/-- The export table `_generateStaticTemplates` produces for
`sampleTemplates`. -/
def sampleExports : List TemplateExport :=
  [{ name := "pages/home", functionName := "template_pages_home" },
   { name := "components/nav", functionName := "template_components_nav" }]

/-! # Theorems -/

/-- C1: the module-bundling configuration does NOT redirect `handlebars` to
`handlebars/runtime`: the `handlebars-runtime` plugin implementing that
redirect is defined but excluded from the `plugins` array passed to
`esbuild.build` (commented out in the source, "Disabled for now - causes
precompile errors"), so resolution of `handlebars` through the configured
plugins yields no redirect and the full, compile-capable template engine is
bundled.  This contradicts the claim and the no-eval guarantee the code
itself documents. -/
theorem c1_handlebars_redirect_not_applied :
    resolveImport workerBuildPlugins "handlebars" = none
    ∧ handlebarsRuntimePlugin.onResolve "handlebars" = some "handlebars/runtime"
    ∧ workerBuildPlugins.map EsbuildPlugin.name =
        ["static-helpers", "node-modules-polyfill", "node-globals-polyfill"]
    ∧ handlebarsRuntimePlugin.name ∉ workerBuildPlugins.map EsbuildPlugin.name := by
  refine ⟨rfl, rfl, rfl, ?_⟩
  decide

/-- C2: with activation requested under the supplied name "Dark" and
available variations Light, Dark, the code selects the FIRST variation's
identifier (uuid-light), not the matching one (uuid-dark); with the
non-matching name "Purple" it also selects uuid-light instead of failing.
The guard `!activate && activate !== undefined` can never be true for a
truthy name string, so the name-matching branch is dead for every real
variation name and control falls through to `variations[0].uuid`. -/
theorem c2_variation_name_not_matched :
    getVariations { applyTheme := true, activate := .str "Dark", variationId := none,
                    variations := none } lightDarkVariations =
      .ok { applyTheme := true, activate := .str "Dark", variationId := some "uuid-light",
            variations := none }
    ∧ getVariations { applyTheme := true, activate := .str "Purple", variationId := none,
                      variations := none } lightDarkVariations =
      .ok { applyTheme := true, activate := .str "Purple", variationId := some "uuid-light",
            variations := none }
    ∧ (some "uuid-light" : Option String) ≠ some "uuid-dark" := by
  refine ⟨rfl, rfl, ?_⟩
  decide

/-- C3: for a template root referencing the external library
"my-external-lib" whose templates directory does not exist, the
template-assembly stage does NOT succeed with zero partials from that
library: the rejected `Promise.allSettled` entry is destructured as
`{ value }` (undefined) and `.map` is called on it, so the stage throws a
TypeError that crashes the build. -/
theorem c3_missing_library_crashes :
    assembleTemplatesPartials missingLibFs "/theme" ["my-external-lib"] =
      .error { name := "TypeError",
               message := "Cannot read properties of undefined (reading map)" } := by
  rfl

/-- Helper: reducing a candidate list with `olderOf` picks an element of
minimal `updated_at`, and among equal minima the LAST one in list order: the
initial list decomposes around the pick, everything before it is at least as
new as the pick (weak bound) and everything after it strictly newer. -/
theorem foldl_olderOf_split (l : List DeleteCandidate) (a : DeleteCandidate) :
    ∃ l1 l2, a :: l = l1 ++ (List.foldl olderOf a l) :: l2
      ∧ (∀ x ∈ l1, (List.foldl olderOf a l).updated_at ≤ x.updated_at)
      ∧ (∀ x ∈ l2, (List.foldl olderOf a l).updated_at < x.updated_at) := by
  induction l generalizing a with
  | nil =>
    exact ⟨[], [], rfl, by simp, by simp⟩
  | cons c rest ih =>
    rw [List.foldl_cons]
    by_cases h : a.updated_at < c.updated_at
    · have hstep : olderOf a c = a := by simp [olderOf, h]
      rw [hstep]
      rcases ih a with ⟨l1, l2, hdecomp, hle, hlt⟩
      cases l1 with
      | nil =>
        simp only [List.nil_append, List.cons.injEq] at hdecomp
        obtain ⟨ha, hrest⟩ := hdecomp
        refine ⟨[], c :: rest, ?_, by simp, ?_⟩
        · simp [← ha]
        · intro x hx
          rcases List.mem_cons.mp hx with hxc | hxr
          · subst hxc
            rw [← ha]
            exact h
          · rw [hrest] at hxr
            exact hlt x hxr
      | cons b l1t =>
        simp only [List.cons_append, List.cons.injEq] at hdecomp
        obtain ⟨hab, hrest⟩ := hdecomp
        refine ⟨a :: c :: l1t, l2, ?_, ?_, hlt⟩
        · conv_lhs => rw [hrest]
          simp
        · intro x hx
          rcases List.mem_cons.mp hx with hxa | hx2
          · subst hxa
            exact hab ▸ hle b (List.mem_cons_self b l1t)
          · rcases List.mem_cons.mp hx2 with hxc | hx3
            · subst hxc
              have h1 : (List.foldl olderOf a rest).updated_at ≤ a.updated_at :=
                hab ▸ hle b (List.mem_cons_self b l1t)
              exact le_trans h1 (le_of_lt h)
            · exact hle x (List.mem_cons_of_mem b hx3)
    · have hstep : olderOf a c = c := by simp [olderOf, h]
      rw [hstep]
      have hca : c.updated_at ≤ a.updated_at := Nat.le_of_not_lt h
      rcases ih c with ⟨l1, l2, hdecomp, hle, hlt⟩
      refine ⟨a :: l1, l2, ?_, ?_, hlt⟩
      · rw [List.cons_append, ← hdecomp]
      · intro x hx
        rcases List.mem_cons.mp hx with hxa | hx1
        · subst hxa
          have hrc : (List.foldl olderOf c rest).updated_at ≤ c.updated_at := by
            cases l1 with
            | nil =>
              simp only [List.nil_append, List.cons.injEq] at hdecomp
              rw [← hdecomp.1]
            | cons b l1t =>
              simp only [List.cons_append, List.cons.injEq] at hdecomp
              exact hdecomp.1 ▸ hle b (List.mem_cons_self b l1t)
          exact le_trans hrc hca
        · exact hle x hx1

/-- C4 counterexample: with `themeLimitReached` and `deleteOldest` set and
two private, non-active themes A and B sharing the minimum `updated_at`, the
deletion-target list is ["B"] — the LAST tied theme in list order — not
["A"] as the claim (first in list order) requires. -/
theorem c4_tie_goes_to_last_counterexample :
    promptUserToDeleteThemesIfNecessary [] tieOptions =
      .ok { tieOptions with themeIdsToDelete := some ["B"] }
    ∧ (some ["B"] : Option (List String)) ≠ some ["A"] := by
  refine ⟨rfl, ?_⟩
  decide

/-- C4 (amended): for every session with `themeLimitReached = true` and
`deleteOldest = true` whose theme list has at least one private, non-active
theme, the deletion-target list is exactly one element: the uuid of a
candidate of minimum `updated_at` among private, non-active themes, and when
several share that minimum, the one appearing LAST in list order (every
candidate after the pick is strictly newer; every candidate before it is at
least as new). -/
theorem c4_delete_oldest_amended (promptSelection : List String) (opts : PushOptions)
    (hLimit : opts.themeLimitReached = true) (hOldest : opts.deleteOldest = true)
    (c : DeleteCandidate) (cs : List DeleteCandidate)
    (hCand : deleteCandidates opts.themes = c :: cs) :
    ∃ oldest l1 l2,
      promptUserToDeleteThemesIfNecessary promptSelection opts =
        .ok { opts with themeIdsToDelete := some [oldest.uuid] }
      ∧ deleteCandidates opts.themes = l1 ++ oldest :: l2
      ∧ (∀ x ∈ l1, oldest.updated_at ≤ x.updated_at)
      ∧ (∀ x ∈ l2, oldest.updated_at < x.updated_at) := by
  rcases foldl_olderOf_split cs c with ⟨l1, l2, hdecomp, hle, hlt⟩
  refine ⟨List.foldl olderOf c cs, l1, l2, ?_, ?_, hle, hlt⟩
  · unfold promptUserToDeleteThemesIfNecessary
    rw [hLimit, hOldest, hCand]
    simp [jsReduceNoInit]
  · rw [hCand, hdecomp]

/-- Witness for `c4_delete_oldest_amended`: a session with a single private,
non-active theme. -/
theorem c4_delete_oldest_witness :
    ∃ oldest l1 l2,
      promptUserToDeleteThemesIfNecessary []
          { themeLimitReached := true, deleteOldest := true,
            themes := [{ uuid := "A", name := "n", is_private := true, is_active := false,
                         updated_at := 7 }],
            themeIdsToDelete := none } =
        .ok { themeLimitReached := true, deleteOldest := true,
              themes := [{ uuid := "A", name := "n", is_private := true, is_active := false,
                           updated_at := 7 }],
              themeIdsToDelete := some [oldest.uuid] }
      ∧ deleteCandidates [{ uuid := "A", name := "n", is_private := true, is_active := false,
                            updated_at := 7 }] = l1 ++ oldest :: l2
      ∧ (∀ x ∈ l1, oldest.updated_at ≤ x.updated_at)
      ∧ (∀ x ∈ l2, oldest.updated_at < x.updated_at) :=
  c4_delete_oldest_amended []
    { themeLimitReached := true, deleteOldest := true,
      themes := [{ uuid := "A", name := "n", is_private := true, is_active := false,
                   updated_at := 7 }],
      themeIdsToDelete := none }
    rfl rfl { uuid := "A", updated_at := 7 } [] rfl

/-- C10: for every session with `themeLimitReached = true` and
`deleteOldest = true` whose theme list contains no private, non-active
theme, the oldest-theme computation throws the raw JavaScript TypeError of a
reduce over an empty array with no initial value — it neither returns a
session nor raises a named workflow error such as `ThemeDeletionError`. -/
theorem c10_empty_reduce_typeerror (promptSelection : List String) (opts : PushOptions)
    (hLimit : opts.themeLimitReached = true) (hOldest : opts.deleteOldest = true)
    (hNone : deleteCandidates opts.themes = []) :
    promptUserToDeleteThemesIfNecessary promptSelection opts =
      .error { name := "TypeError", message := "Reduce of empty array with no initial value" }
    ∧ ({ name := "TypeError",
         message := "Reduce of empty array with no initial value" } : JsError).name ≠
        "ThemeDeletionError" := by
  constructor
  · unfold promptUserToDeleteThemesIfNecessary
    rw [hLimit, hOldest, hNone]
    simp [jsReduceNoInit]
  · decide

/-- Witness for `c10_empty_reduce_typeerror`: a session whose only theme is
active (hence not a deletion candidate). -/
theorem c10_empty_reduce_typeerror_witness :
    promptUserToDeleteThemesIfNecessary [] noCandidateOptions =
      .error { name := "TypeError", message := "Reduce of empty array with no initial value" }
    ∧ ({ name := "TypeError",
         message := "Reduce of empty array with no initial value" } : JsError).name ≠
        "ThemeDeletionError" :=
  c10_empty_reduce_typeerror [] noCandidateOptions rfl rfl rfl

/-- Helper: with an infinite `times` setting (`none`), the behaviour of the
retry loop does not depend on the attempt counter. -/
theorem runRetryable_attempt_irrelevant {ε α : Type} (interval : Nat)
    (filterEv : ε → Option (List TraceEv)) (okEvents : List TraceEv)
    (script : List (Except ε α)) (a b : Nat) :
    runRetryable interval filterEv okEvents a none script =
      runRetryable interval filterEv okEvents b none script := by
  induction script generalizing a b with
  | nil => rfl
  | cons r rest ih =>
    cases r with
    | ok v => rfl
    | error e =>
      simp only [runRetryable]
      cases filterEv e with
      | none => rfl
      | some evs =>
        simp only [ih (a + 1) (b + 1)]

/-- C5: the job-completion poll (interval 1000 ms, unbounded attempts):
(1) a terminal (successful) response ends the loop on that call and reports
100; (2) a non-pending error is surfaced immediately without retry and
without a progress update; (3) a pending-named error, at ANY point of the
unbounded loop, reports the percentage carried in its message, sleeps the
fixed 1000 ms interval and retries; and (4) on the concrete response script
[pending 10, pending 55, complete] the reported progress updates are 10, 55,
100 in that order, with a 1-second sleep between attempts, and the loop
terminates after the third call. -/
theorem c5_poll_loop :
    (∀ (α : Type) (v : α) (script : List (Except JobError α)),
       pollForJobCompletion α (.ok v :: script) =
         { calls := 1, trace := [.progress 100], result := some (.ok v) })
    ∧ (∀ (α : Type) (e : JobError) (script : List (Except JobError α)),
         e.name ≠ jobPendingName →
         pollForJobCompletion α (.error e :: script) =
           { calls := 1, trace := [], result := some (.error e) })
    ∧ (∀ (α : Type) (e : JobError) (script : List (Except JobError α)),
         e.name = jobPendingName →
         pollForJobCompletion α (.error e :: script) =
           { calls := (pollForJobCompletion α script).calls + 1,
             trace := .progress e.message :: .sleep 1000 ::
               (pollForJobCompletion α script).trace,
             result := (pollForJobCompletion α script).result })
    ∧ pollForJobCompletion Unit
        [.error { name := "JobCompletionStatusCheckPendingError", message := 10 },
         .error { name := "JobCompletionStatusCheckPendingError", message := 55 },
         .ok ()] =
      { calls := 3,
        trace := [.progress 10, .sleep 1000, .progress 55, .sleep 1000, .progress 100],
        result := some (.ok ()) } := by
  refine ⟨fun α v script => rfl, ?_, ?_, rfl⟩
  · intro α e script hne
    have hf : pollErrorFilter e = none := by
      simp [pollErrorFilter, hne]
    simp [pollForJobCompletion, runRetryable, hf]
  · intro α e script hpe
    have hf : pollErrorFilter e = some [.progress e.message] := by
      simp [pollErrorFilter, hpe]
    simp only [pollForJobCompletion, runRetryable, hf]
    rw [runRetryable_attempt_irrelevant 1000 pollErrorFilter [.progress 100] script 2 1]
    simp

/-- Witness for `c5_poll_loop`: a non-pending error on the first call is
surfaced immediately. -/
theorem c5_poll_loop_witness :
    pollForJobCompletion Unit [.error { name := "ThemeUploadError", message := 0 }] =
      { calls := 1, trace := [], result := some (.error { name := "ThemeUploadError", message := 0 }) } :=
  c5_poll_loop.2.1 Unit { name := "ThemeUploadError", message := 0 } [] (by decide)

/-- C9: the activation step (interval 1000 ms, 3 attempts total): (1) a
failure with any non-timeout error name is surfaced immediately without
retry; (2) a timeout-named failure is retried after a 1-second sleep, so a
timeout followed by a success completes on the second call; and (3) three
consecutive timeout-named failures exhaust the 3-attempt budget: the loop
stops after exactly three calls (two interleaved 1-second sleeps) and the
third error is surfaced, regardless of any further available responses. -/
theorem c9_activation_retry :
    (∀ (α : Type) (e : JobError) (script : List (Except JobError α)),
       e.name ≠ activationTimeoutName →
       requestToApplyVariationWithRetrys α (.error e :: script) =
         { calls := 1, trace := [], result := some (.error e) })
    ∧ (∀ (α : Type) (e : JobError) (v : α) (script : List (Except JobError α)),
         e.name = activationTimeoutName →
         requestToApplyVariationWithRetrys α (.error e :: .ok v :: script) =
           { calls := 2, trace := [.sleep 1000], result := some (.ok v) })
    ∧ (∀ (α : Type) (e1 e2 e3 : JobError) (script : List (Except JobError α)),
         e1.name = activationTimeoutName → e2.name = activationTimeoutName →
         e3.name = activationTimeoutName →
         requestToApplyVariationWithRetrys α (.error e1 :: .error e2 :: .error e3 :: script) =
           { calls := 3, trace := [.sleep 1000, .sleep 1000],
             result := some (.error e3) }) := by
  refine ⟨?_, ?_, ?_⟩
  · intro α e script hne
    have hf : activationErrorFilter e = none := by
      simp [activationErrorFilter, hne]
    simp [requestToApplyVariationWithRetrys, runRetryable, hf]
  · intro α e v script hpe
    have hf : activationErrorFilter e = some [] := by
      simp [activationErrorFilter, hpe]
    simp [requestToApplyVariationWithRetrys, runRetryable, hf]
  · intro α e1 e2 e3 script h1 h2 h3
    have hf1 : activationErrorFilter e1 = some [] := by
      simp [activationErrorFilter, h1]
    have hf2 : activationErrorFilter e2 = some [] := by
      simp [activationErrorFilter, h2]
    simp [requestToApplyVariationWithRetrys, runRetryable, hf1, hf2]

/-- Witness for `c9_activation_retry`: three consecutive timeouts stop the
loop after exactly three calls and surface the third error, even though a
successful response would have followed. -/
theorem c9_activation_retry_witness :
    requestToApplyVariationWithRetrys Unit
        [.error { name := "VariationActivationTimeoutError", message := 0 },
         .error { name := "VariationActivationTimeoutError", message := 1 },
         .error { name := "VariationActivationTimeoutError", message := 2 },
         .ok ()] =
      { calls := 3, trace := [.sleep 1000, .sleep 1000],
        result := some (.error { name := "VariationActivationTimeoutError", message := 2 }) } :=
  c9_activation_retry.2.2 Unit
    { name := "VariationActivationTimeoutError", message := 0 }
    { name := "VariationActivationTimeoutError", message := 1 }
    { name := "VariationActivationTimeoutError", message := 2 }
    [.ok ()] rfl rfl rfl

/-- Helper: anything already accumulated stays in the fold of the
allow-list groups. -/
theorem exportedHelpersFold_acc_mem {υ : Type}
    (modules : String → Option (String → Option υ)) (groups : List WhitelistGroup)
    (acc : List (HelperEntry υ)) (h : HelperEntry υ) (hmem : h ∈ acc) :
    h ∈ exportedHelpersFold modules groups acc := by
  induction groups generalizing acc with
  | nil => exact hmem
  | cons g rest ih =>
    simp only [exportedHelpersFold]
    cases modules g.name with
    | none => exact ih acc hmem
    | some m =>
      exact ih _ (List.mem_append_left _ hmem)

/-- Helper: every entry of the fold comes from the accumulator or from some
group of the list, under a name in that group's allow-list. -/
theorem exportedHelpersFold_mem_sound {υ : Type}
    (modules : String → Option (String → Option υ)) (groups : List WhitelistGroup)
    (acc : List (HelperEntry υ)) (h : HelperEntry υ)
    (hmem : h ∈ exportedHelpersFold modules groups acc) :
    h ∈ acc ∨ ∃ g ∈ groups, h.name ∈ g.includeNames := by
  induction groups generalizing acc with
  | nil => exact Or.inl hmem
  | cons g rest ih =>
    simp only [exportedHelpersFold] at hmem
    cases hm : modules g.name with
    | none =>
        rw [hm] at hmem
        rcases ih acc hmem with hacc | ⟨g2, hg2, hn⟩
        · exact Or.inl hacc
        · exact Or.inr ⟨g2, List.mem_cons_of_mem g hg2, hn⟩
    | some m =>
        rw [hm] at hmem
        rcases ih _ hmem with hacc | ⟨g2, hg2, hn⟩
        · rcases List.mem_append.mp hacc with hl | hr
          · exact Or.inl hl
          · rcases List.mem_map.mp hr with ⟨n, hn, hne⟩
            refine Or.inr ⟨g, List.mem_cons_self g rest, ?_⟩
            rw [← hne]
            exact hn
        · exact Or.inr ⟨g2, List.mem_cons_of_mem g hg2, hn⟩

/-- Helper: every allow-listed name of a group whose module is present is
exported by the fold, with the factory reading that module. -/
theorem exportedHelpersFold_mem_complete {υ : Type}
    (modules : String → Option (String → Option υ)) (groups : List WhitelistGroup)
    (acc : List (HelperEntry υ)) (g : WhitelistGroup) (m : String → Option υ) (n : String)
    (hg : g ∈ groups) (hm : modules g.name = some m) (hn : n ∈ g.includeNames) :
    HelperEntry.mk n (m n) ∈ exportedHelpersFold modules groups acc := by
  induction groups generalizing acc with
  | nil => cases hg
  | cons g0 rest ih =>
    simp only [exportedHelpersFold]
    rcases List.mem_cons.mp hg with hgeq | hgrest
    · subst hgeq
      rw [hm]
      refine exportedHelpersFold_acc_mem modules rest _ _ ?_
      refine List.mem_append_right _ ?_
      exact List.mem_map.mpr ⟨n, hn, rfl⟩
    · cases modules g0.name with
      | none => exact ih acc hgrest
      | some m0 => exact ih _ hgrest

/-- C6: the helper table emitted by the static thirdParty.js substitution
contains only allow-listed names: (1) every exported helper's name lies in
some group's allow-list, whatever the (external) group modules define;
(2) for every group whose module is present, every allow-listed name of that
group is exported, with its factory reading exactly that module; (3) for the
math group, `add` is allow-listed, and (4) a name the real math module
defines but no allow-list contains, such as `modulo`, is never exported. -/
theorem c6_helper_allowlist :
    (∀ (υ : Type) (modules : String → Option (String → Option υ)) (h : HelperEntry υ),
       h ∈ exportedHelpers modules → ∃ g ∈ whitelist, h.name ∈ g.includeNames)
    ∧ (∀ (υ : Type) (modules : String → Option (String → Option υ))
         (g : WhitelistGroup) (m : String → Option υ) (n : String),
         g ∈ whitelist → modules g.name = some m → n ∈ g.includeNames →
         HelperEntry.mk n (m n) ∈ exportedHelpers modules)
    ∧ (∃ g ∈ whitelist, g.name = "math" ∧ "add" ∈ g.includeNames)
    ∧ (∀ (υ : Type) (modules : String → Option (String → Option υ)) (h : HelperEntry υ),
         h ∈ exportedHelpers modules → h.name ≠ "modulo") := by
  have hsound : ∀ (υ : Type) (modules : String → Option (String → Option υ))
      (h : HelperEntry υ),
      h ∈ exportedHelpers modules → ∃ g ∈ whitelist, h.name ∈ g.includeNames := by
    intro υ modules h hmem
    rcases exportedHelpersFold_mem_sound modules whitelist [] h hmem with habs | hres
    · cases habs
    · exact hres
  refine ⟨hsound, ?_, ?_, ?_⟩
  · intro υ modules g m n hg hm hn
    exact exportedHelpersFold_mem_complete modules whitelist [] g m n hg hm hn
  · refine ⟨{ name := "math",
              includeNames := ["add", "subtract", "divide", "multiply", "floor", "ceil",
                               "round", "sum", "avg"] }, ?_, rfl, ?_⟩
    · decide
    · decide
  · intro υ modules h hmem hname
    rcases hsound υ modules h hmem with ⟨g, hg, hn⟩
    rw [hname] at hn
    have : ∀ g2 ∈ whitelist, "modulo" ∉ g2.includeNames := by decide
    exact this g hg hn

/-- Witness for `c6_helper_allowlist`: with only a math module defining only
`add`, the helper named `add` is exported with that module's value, and no
helper named `modulo` is exported. -/
theorem c6_helper_allowlist_witness :
    HelperEntry.mk "add" (some 0) ∈ exportedHelpers mathOnlyModules
    ∧ ∀ h ∈ exportedHelpers mathOnlyModules, h.name ≠ "modulo" := by
  constructor
  · exact c6_helper_allowlist.2.1 Nat mathOnlyModules
      { name := "math",
        includeNames := ["add", "subtract", "divide", "multiply", "floor", "ceil",
                         "round", "sum", "avg"] }
      (fun n => if n == "add" then some 0 else none) "add"
      (by decide) rfl (by decide)
  · intro h hmem
    exact c6_helper_allowlist.2.2.2 Nat mathOnlyModules h hmem

/-- Helper: when every stage succeeds, the orchestrator executes the whole
stage list in order and succeeds. -/
theorem runSeq_all_ok {E : Type} (env : BundleStage → Except E Unit)
    (l : List BundleStage) (hok : ∀ s ∈ l, env s = .ok ()) :
    runSeq env l = (l, .ok ()) := by
  induction l with
  | nil => rfl
  | cons s rest ih =>
    simp only [runSeq]
    rw [hok s (List.mem_cons_self s rest)]
    rw [ih (fun s2 hs2 => hok s2 (List.mem_cons_of_mem s hs2))]

/-- Helper: the first failing stage aborts the remaining stages; the
executed trace is exactly the stages up to and including it and its error is
surfaced unchanged. -/
theorem runSeq_first_error {E : Type} (env : BundleStage → Except E Unit)
    (l : List BundleStage) (k : Nat) (e : E) (hk : k < l.length)
    (hpre : ∀ j (hj : j < k), env (l.get ⟨j, Nat.lt_trans hj hk⟩) = .ok ())
    (herr : env (l.get ⟨k, hk⟩) = .error e) :
    runSeq env l = (l.take (k + 1), .error e) := by
  induction l generalizing k with
  | nil => cases hk
  | cons s rest ih =>
    cases k with
    | zero =>
      have herr0 : env s = .error e := herr
      simp only [runSeq]
      rw [herr0]
      rfl
    | succ k2 =>
      have hs : env s = .ok () := hpre 0 (Nat.succ_pos k2)
      simp only [runSeq]
      rw [hs]
      have hk2 : k2 < rest.length := Nat.lt_of_succ_lt_succ hk
      have herr2 : env (rest.get ⟨k2, hk2⟩) = .error e := herr
      have hpre2 : ∀ j (hj : j < k2), env (rest.get ⟨j, Nat.lt_trans hj hk2⟩) = .ok () :=
        fun j hj => hpre (j + 1) (Nat.succ_lt_succ hj)
      rw [ih k2 hk2 hpre2 herr2]
      rfl

/-- C7 counterexample: with every stage succeeding, the orchestrator's
executed trace creates the output directory immediately after validation,
BEFORE template assembly, language assembly and the schema/config fetch —
not after them as the claim states. -/
theorem c7_stage_order_counterexample :
    initBundle String allOkEnv = (bundleStages, .ok ())
    ∧ bundleStages ≠ specClaimedStageOrder
    ∧ bundleStages.take 3 = [.validate, .createOutputDir, .assembleTemplates]
    ∧ specClaimedStageOrder.take 3 = [.validate, .assembleTemplates, .assembleLang] := by
  refine ⟨?_, by decide, by decide, by decide⟩
  exact runSeq_all_ok allOkEnv bundleStages (fun s _ => rfl)

/-- C7 (amended): the orchestrator runs its stages in exactly the order
validate, create output directory, assemble templates, assemble language
files, fetch schema, fetch config, then the worker-specific tail; validation
is always the first stage; when every stage succeeds all stages run in that
order, and the first failing stage aborts all remaining stages, the executed
trace being exactly the stages up to and including it, with the originating
error surfaced unchanged (no wrapping). -/
theorem c7_stage_machine_amended :
    bundleStages.head? = some .validate
    ∧ bundleStages =
        [.validate, .createOutputDir, .assembleTemplates, .assembleLang, .getSchema,
         .getConfig, .generateWorkerPackageJson, .installWorkerDependencies,
         .generateWorkerScript, .copyAssets, .generateWranglerConfig]
    ∧ (∀ (E : Type) (env : BundleStage → Except E Unit),
         (∀ s, env s = .ok ()) → initBundle E env = (bundleStages, .ok ()))
    ∧ (∀ (E : Type) (env : BundleStage → Except E Unit) (k : Nat) (e : E)
         (hk : k < bundleStages.length),
         (∀ j (hj : j < k), env (bundleStages.get ⟨j, Nat.lt_trans hj hk⟩) = .ok ()) →
         env (bundleStages.get ⟨k, hk⟩) = .error e →
         initBundle E env = (bundleStages.take (k + 1), .error e)) := by
  refine ⟨rfl, rfl, ?_, ?_⟩
  · intro E env hok
    exact runSeq_all_ok env bundleStages (fun s _ => hok s)
  · intro E env k e hk hpre herr
    exact runSeq_first_error env bundleStages k e hk hpre herr

/-- Witness for `c7_stage_machine_amended`: an environment failing at
template assembly aborts after the first three stages and surfaces the
original error string unchanged. -/
theorem c7_stage_machine_witness :
    initBundle String failAtTemplatesEnv =
      ([.validate, .createOutputDir, .assembleTemplates], .error "fs failure") :=
  c7_stage_machine_amended.2.2.2 String failAtTemplatesEnv 2 "fs failure" (by decide)
    (by
      intro j hj
      interval_cases j
      · rfl
      · rfl)
    rfl

/-- Helper: appending on the left of a string is cancellable. -/
theorem string_append_left_cancel (p a b : String) (h : p ++ a = p ++ b) : a = b := by
  cases p with
  | mk pd =>
    cases a with
    | mk ad =>
      cases b with
      | mk bd =>
        have hd : pd ++ ad = pd ++ bd := congrArg String.data h
        have hab : ad = bd := List.append_cancel_left hd
        rw [hab]

/-- Helper: every export entry generated by `_generateStaticTemplates` pairs
the original identifier with the function name derived from it. -/
theorem generateStaticTemplates_shape (ε : Type) (precompile : String → Except ε String)
    (templates : List (String × TemplateData)) (exps : List TemplateExport)
    (hok : generateStaticTemplates ε precompile templates = .ok exps) :
    exps.map (fun e => (e.name, e.functionName)) =
      templates.filterMap
        (fun p => (resolveTemplateSource p.1 p.2).map
          (fun _ => (p.1, "template_" ++ safeName p.1))) := by
  induction templates generalizing exps with
  | nil =>
    simp only [generateStaticTemplates] at hok
    cases hok
    rfl
  | cons p rest ih =>
    obtain ⟨n, d⟩ := p
    simp only [generateStaticTemplates] at hok
    cases hsrc : resolveTemplateSource n d with
    | none =>
      simp only [hsrc] at hok
      simp only [List.filterMap_cons, hsrc, Option.map_none']
      exact ih exps hok
    | some src =>
      simp only [hsrc] at hok
      cases hpre : precompile src with
      | error e =>
        simp only [hpre] at hok
        cases hok
      | ok out =>
        simp only [hpre] at hok
        cases hrest : generateStaticTemplates ε precompile rest with
        | error e =>
          simp only [hrest] at hok
          cases hok
        | ok exps2 =>
          simp only [hrest] at hok
          cases hok
          simp only [List.map_cons, List.filterMap_cons, hsrc, Option.map_some']
          rw [ih exps2 hrest]

/-- C8 counterexample: the distinct partial identifiers `a/b` and `a.b`
sanitize to the same string, so their derived function names coincide
(`template_a_b`): the sanitized function names of distinct identifiers are
NOT always distinct, and both export-table entries reference the same
generated function. -/
theorem c8_sanitize_collision_counterexample :
    generateStaticTemplates Unit (fun s => .ok s)
        [("a/b", .str "x"), ("a.b", .str "y")] =
      .ok [{ name := "a/b", functionName := "template_a_b" },
           { name := "a.b", functionName := "template_a_b" }]
    ∧ ("a/b" : String) ≠ "a.b"
    ∧ safeName "a/b" = safeName "a.b" := by
  refine ⟨rfl, by decide, by decide⟩

/-- C8 (amended): whenever `_generateStaticTemplates` succeeds, the emitted
export table maps each original (unsanitized) partial identifier with a
resolvable source, in order, to the function named `template_` followed by
its own sanitized identifier; two entries therefore receive distinct
function names whenever their identifiers sanitize differently (sanitization
itself is not injective: distinct identifiers may collide, as
`c8_sanitize_collision_counterexample` shows). -/
theorem c8_export_table_amended (ε : Type) (precompile : String → Except ε String)
    (templates : List (String × TemplateData)) (exps : List TemplateExport)
    (hok : generateStaticTemplates ε precompile templates = .ok exps) :
    (exps.map (fun e => (e.name, e.functionName)) =
       templates.filterMap
         (fun p => (resolveTemplateSource p.1 p.2).map
           (fun _ => (p.1, "template_" ++ safeName p.1))))
    ∧ (∀ e1 ∈ exps, e1.functionName = "template_" ++ safeName e1.name)
    ∧ (∀ e1 ∈ exps, ∀ e2 ∈ exps,
         safeName e1.name ≠ safeName e2.name → e1.functionName ≠ e2.functionName) := by
  have hshape := generateStaticTemplates_shape ε precompile templates exps hok
  have hfn : ∀ e1 ∈ exps, e1.functionName = "template_" ++ safeName e1.name := by
    intro e1 he1
    have hmem : (e1.name, e1.functionName) ∈
        exps.map (fun e => (e.name, e.functionName)) :=
      List.mem_map.mpr ⟨e1, he1, rfl⟩
    rw [hshape] at hmem
    rcases List.mem_filterMap.mp hmem with ⟨p, _, hp⟩
    cases hsrc : resolveTemplateSource p.1 p.2 with
    | none =>
      rw [hsrc] at hp
      simp at hp
    | some src =>
      rw [hsrc] at hp
      simp only [Option.map_some', Option.some.injEq, Prod.mk.injEq] at hp
      rw [← hp.2, hp.1]
  refine ⟨hshape, hfn, ?_⟩
  intro e1 he1 e2 he2 hne heq
  rw [hfn e1 he1, hfn e2 he2] at heq
  exact hne (string_append_left_cancel "template_" (safeName e1.name) (safeName e2.name) heq)

/-- Witness for `c8_export_table_amended`: the concrete template map
`sampleTemplates` generates `sampleExports`, whose entries each carry the
function name derived from their own identifier, with distinct names for the
distinctly-sanitizing identifiers. -/
theorem c8_export_table_witness :
    (sampleExports.map (fun e => (e.name, e.functionName)) =
       sampleTemplates.filterMap
         (fun p => (resolveTemplateSource p.1 p.2).map
           (fun _ => (p.1, "template_" ++ safeName p.1))))
    ∧ (∀ e1 ∈ sampleExports, e1.functionName = "template_" ++ safeName e1.name)
    ∧ (∀ e1 ∈ sampleExports, ∀ e2 ∈ sampleExports,
         safeName e1.name ≠ safeName e2.name → e1.functionName ≠ e2.functionName) :=
  c8_export_table_amended Unit (fun s => .ok s) sampleTemplates sampleExports rfl
